import Mathlib

/-!
# Project scaffolder (`create` command): model and verified properties

The program is a single Go `main` whose `create` command validates two flags,
creates a target directory, runs `go mod init` and four `go get` commands in
it, creates three subdirectories and writes three fixed template files.

The embedding is explicit state passing over a `World`: a filesystem together
with the trace of calls the program has issued so far.  Library calls
(`os.Stat`, `os.Mkdir`, `os.MkdirAll`, `os.WriteFile`, `exec.Cmd.Run`,
`filepath.Join`, `fmt.Println`) are modelled below; external commands are an
arbitrary function `tool` from a command and a filesystem to a new filesystem
and a success flag.

Modelling conventions:
* a path is the list of its components from the root, after resolution;
  `filepath.Join` is lexical cleaning, which agrees with resolution in a tree
  without symbolic links;
* a filesystem is a function from paths to nodes in which the root is a
  directory and every entry has a directory as parent;
* permissions are recorded in the trace only; filesystem calls fail for
  structural reasons only (missing parent, entry in the way).
-/

namespace Scaffold

/-! ## Paths -/

/-- Resolved location: the components from the root. -/
abbrev Path := List String

/-- Components of a slash-separated string, with `cur` the component being read (reversed). -/
def splitSlashAux : List Char → List Char → List String
  | [], cur => [String.mk cur.reverse]
  | c :: cs, cur =>
    if c = '/' then String.mk cur.reverse :: splitSlashAux cs []
    else splitSlashAux cs (c :: cur)

/-- Components of a slash-separated string. -/
def splitSlash (s : String) : List String :=
  splitSlashAux s.data []

/-- Follow raw components from a location: empty and `.` stay, `..` goes to the
parent (the root is its own parent), anything else descends. -/
def walk : Path → List String → Path
  | at_, [] => at_
  | at_, c :: cs =>
    if c = "" then walk at_ cs
    else if c = "." then walk at_ cs
    else if c = ".." then walk at_.dropLast cs
    else walk (at_ ++ [c]) cs

/-- Whether a path string is absolute. -/
def isAbs (s : String) : Bool :=
  match s.data with
  | c :: _ => c == '/'
  | [] => false

/-- Location named by a path string for a process whose working directory is `cwd`. -/
def resolve (cwd : Path) (s : String) : Path :=
  walk (if isAbs s then [] else cwd) (splitSlash s)

/-- Model of `filepath.Join(base, rel)` for a non-empty `base` already resolved
to a location and a non-empty `rel`. -/
def filepathJoin (base : Path) (rel : String) : Path :=
  walk base (splitSlash rel)

/-! ## Filesystem -/

/-- Node of the tree: a regular file with its bytes, or a directory. -/
inductive Node
  | file (content : String)
  | dir
  deriving DecidableEq, Repr

/-- Filesystem: a tree given by its lookup function. -/
structure FS where
  ents : Path → Option Node
  root_dir : ents [] = some Node.dir
  parent_dir : ∀ p, ents p ≠ none → ents p.dropLast = some Node.dir

/-- Filesystem holding the root directory only. -/
def FS.empty : FS where
  ents := fun p => if p = [] then some Node.dir else none
  root_dir := by simp
  parent_dir := by
    intro p hp
    by_cases h : p = []
    · subst h; simp
    · simp [h] at hp

/-- Put node `n` at `p`, whose parent is a directory and which is not itself a directory. -/
def FS.insert (fs : FS) (p : Path) (n : Node)
    (hpar : fs.ents p.dropLast = some Node.dir) (hnd : fs.ents p ≠ some Node.dir) : FS where
  ents := fun q => if q = p then some n else fs.ents q
  root_dir := by
    have h : ([] : Path) ≠ p := by
      intro e; subst e; exact hnd fs.root_dir
    simp [h, fs.root_dir]
  parent_dir := by
    intro q hq
    have hp : p ≠ [] := by
      intro e; subst e; exact hnd fs.root_dir
    by_cases hqp : q = p
    · subst hqp
      have hne : q.dropLast ≠ q := by
        intro e
        have hlen := congrArg List.length e
        have hpos : 0 < q.length := List.length_pos.mpr hp
        simp at hlen
        omega
      simp [hne, hpar]
    · simp only [hqp, if_false] at hq
      have h1 := fs.parent_dir q hq
      by_cases h2 : q.dropLast = p
      · rw [h2] at h1; exact absurd h1 hnd
      · simp [h2, h1]

/-- Model of `os.Mkdir`: fails when the entry exists or the parent is not a directory. -/
def FS.mkdir (fs : FS) (p : Path) : Option FS :=
  if hex : fs.ents p = none then
    if hpar : fs.ents p.dropLast = some Node.dir then
      some (fs.insert p Node.dir hpar (by simp [hex]))
    else none
  else none

/-- Model of `os.MkdirAll` on the reversed path: an existing directory is
success, an existing file is an error, otherwise the parent is made first and
then the directory itself. -/
def FS.mkdirAllRev (fs : FS) : List String → Option FS
  | [] => some fs
  | c :: rparent =>
    match fs.ents (c :: rparent).reverse with
    | some Node.dir => some fs
    | some (Node.file _) => none
    | none =>
      match FS.mkdirAllRev fs rparent with
      | none => none
      | some fs1 => fs1.mkdir (c :: rparent).reverse

/-- Model of `os.MkdirAll`. -/
def FS.mkdirAll (fs : FS) (p : Path) : Option FS :=
  fs.mkdirAllRev p.reverse

/-- Model of `os.WriteFile`: creates or truncates the file; fails when the
parent is not a directory or the entry is a directory. -/
def FS.writeFile (fs : FS) (p : Path) (content : String) : Option FS :=
  if hnd : fs.ents p = some Node.dir then none
  else if hpar : fs.ents p.dropLast = some Node.dir then
    some (fs.insert p (Node.file content) hpar hnd)
  else none

/-- Text whose lines are `ls`, each ended by a newline. -/
def unlines (ls : List String) : String :=
  String.join (ls.map (fun l => l ++ "\n"))

/-- Lines of the literal in `WriteMainFile`. -/
def mainFileLines : List String :=
  ["package main",
   "",
   "import (",
   "\t\"context\"",
   "\t\"fmt\"",
   "\t\"os\"",
   "\t\"os/signal\"",
   "\t\"syscall\"",
   "\t\"time\"",
   "",
   "\t\"github.com/gofiber/fiber/v2\"",
   "\t\"github.com/rs/zerolog\"",
   "\t\"github.com/jmoiron/sqlx\"",
   "\t_ \"github.com/lib/pq\"",
   ")",
   "",
   "func main() \x7b",
   "\t// Initialize logger",
   "\tlogger := zerolog.New(os.Stdout).With().Timestamp().Logger()",
   "",
   "\t// Initialize database",
   "\tdb, err := sqlx.Connect(\"postgres\", \"user=postgres password=secret dbname=mydb sslmode=disable\")",
   "\tif err != nil \x7b",
   "\t\tlogger.Fatal().Err(err).Msg(\"Failed to connect to the database\")",
   "\t\x7d",
   "\tdefer db.Close()",
   "",
   "\t// Initialize Fiber app",
   "\tapp := fiber.New()",
   "",
   "\t// Add routes",
   "\tapp.Get(\"/health\", func(c *fiber.Ctx) error \x7b",
   "\t\tfmt.Println(\"Health check\")",
   "\t\treturn c.JSON(fiber.Map\x7b\"status\": \"ok\"\x7d)",
   "\t\x7d)",
   "",
   "\tapp.Get(\"/simple\", func(c *fiber.Ctx) error \x7b",
   "\t\treturn c.SendString(\"Hello from Fiber!\")",
   "\t\x7d)",
   "",
   "\t// Graceful shutdown",
   "\tgo func() \x7b",
   "\t\tif err := app.Listen(\":3000\"); err != nil \x7b",
   "\t\t\tlogger.Fatal().Err(err).Msg(\"Failed to start server\")",
   "\t\t\x7d",
   "\t\x7d()",
   "",
   "\tquit := make(chan os.Signal, 1)",
   "\tsignal.Notify(quit, syscall.SIGINT, syscall.SIGTERM)",
   "\t<-quit",
   "",
   "\tlogger.Info().Msg(\"Shutting down server...\")",
   "\tctx, cancel := context.WithTimeout(context.Background(), 5*time.Second)",
   "\tdefer cancel()",
   "",
   "\tif err := app.ShutdownWithContext(ctx); err != nil \x7b",
   "\t\tlogger.Error().Err(err).Msg(\"Error during shutdown\")",
   "\t\x7d",
   "\x7d"]

/-- Lines of the literal in `WriteHandlerFile`. -/
def handlerFileLines : List String :=
  ["package handler",
   "",
   "import \"github.com/gofiber/fiber/v2\"",
   "",
   "// SimpleHandler demonstrates a simple GET endpoint",
   "func SimpleHandler(c *fiber.Ctx) error \x7b",
   "\treturn c.SendString(\"Hello from handler!\")",
   "\x7d"]

/-- Lines of the literal in `WriteDockerComposeFile`. -/
def composeFileLines : List String :=
  ["version: \x273.8\x27",
   "",
   "services:",
   "  postgres:",
   "    image: postgres:15",
   "    container_name: postgres_container",
   "    environment:",
   "      POSTGRES_USER: postgres",
   "      POSTGRES_PASSWORD: secret",
   "      POSTGRES_DB: mydb",
   "    ports:",
   "      - \"5432:5432\"",
   "    volumes:",
   "      - postgres_data:/var/lib/postgresql/data",
   "",
   "volumes:",
   "  postgres_data:"]

/-! ## World, calls and trace -/

/-- External command as built by `exec.Command`, with its `Dir`. -/
structure Cmd where
  name : String
  args : List String
  dir : Path
  deriving DecidableEq, Repr

/-- Call issued by the program. -/
inductive Event
  | println (msg : String)
  | printlnPath (msg : String) (p : Path)
  | stat (p : Path)
  | mkdir (p : Path) (perm : Nat)
  | run (c : Cmd)
  | mkdirAll (p : Path) (perm : Nat)
  | writeFile (p : Path) (content : String) (perm : Nat)
  deriving DecidableEq, Repr

/-- State threaded through the run: the filesystem and the calls issued so far. -/
structure World where
  fs : FS
  trace : List Event

/-- Behaviour of the external toolchain: the filesystem a command leaves and
whether it exited with status zero. -/
abbrev Tool := Cmd → FS → FS × Bool

/-- How the `create` command ends: at the end of `Run`, at one of its early
`return`s after a message, or in `log.Fatal`. -/
inductive Outcome
  | done
  | declined
  | fatal
  deriving DecidableEq, Repr

/-- Exit status of the process. -/
def Outcome.exitCode : Outcome → Nat
  | Outcome.done => 0
  | Outcome.declined => 0
  | Outcome.fatal => 1

/-- Model of `fmt.Println(msg)`. -/
def println (w : World) (msg : String) : World :=
  ⟨w.fs, w.trace ++ [Event.println msg]⟩

/-- Model of `fmt.Println(msg, path)`. -/
def printlnPath (w : World) (msg : String) (p : Path) : World :=
  ⟨w.fs, w.trace ++ [Event.printlnPath msg p]⟩

/-- Model of `os.Stat`; the flag is `err == nil`. -/
def osStat (w : World) (p : Path) : Bool × World :=
  ((w.fs.ents p).isSome, ⟨w.fs, w.trace ++ [Event.stat p]⟩)

/-- Model of `os.Mkdir`; the flag is `err == nil`. -/
def osMkdir (w : World) (p : Path) (perm : Nat) : Bool × World :=
  match w.fs.mkdir p with
  | some fs1 => (true, ⟨fs1, w.trace ++ [Event.mkdir p perm]⟩)
  | none => (false, ⟨w.fs, w.trace ++ [Event.mkdir p perm]⟩)

/-- Model of `os.MkdirAll`; the flag is `err == nil`. -/
def osMkdirAll (w : World) (p : Path) (perm : Nat) : Bool × World :=
  match w.fs.mkdirAll p with
  | some fs1 => (true, ⟨fs1, w.trace ++ [Event.mkdirAll p perm]⟩)
  | none => (false, ⟨w.fs, w.trace ++ [Event.mkdirAll p perm]⟩)

/-- Model of `os.WriteFile`; the flag is `err == nil`. -/
def osWriteFile (w : World) (p : Path) (content : String) (perm : Nat) : Bool × World :=
  match w.fs.writeFile p content with
  | some fs1 => (true, ⟨fs1, w.trace ++ [Event.writeFile p content perm]⟩)
  | none => (false, ⟨w.fs, w.trace ++ [Event.writeFile p content perm]⟩)

/-- Model of `exec.Cmd.Run`; the flag is `err == nil`. -/
def execRun (tool : Tool) (w : World) (c : Cmd) : Bool × World :=
  ((tool c w.fs).2, ⟨(tool c w.fs).1, w.trace ++ [Event.run c]⟩)

/-! ## The program -/

/-- Source: `WriteMainFile`. -/
def WriteMainFile (w : World) (mainPath : Path) : Bool × World :=
  osWriteFile w mainPath (unlines mainFileLines) 0o644

/-- Source: `WriteHandlerFile`. -/
def WriteHandlerFile (w : World) (handlerPath : Path) : Bool × World :=
  osWriteFile w handlerPath (unlines handlerFileLines) 0o644

/-- Source: `WriteDockerComposeFile`. -/
def WriteDockerComposeFile (w : World) (dockerComposePath : Path) : Bool × World :=
  osWriteFile w dockerComposePath (unlines composeFileLines) 0o644

/-- Source: the `dependencies` slice. -/
def dependencies : List String :=
  ["github.com/gofiber/fiber/v2",
   "github.com/rs/zerolog",
   "github.com/jmoiron/sqlx",
   "github.com/lib/pq"]

/-- Source: the `directories` slice. -/
def directories : List String :=
  ["cmd", "internal/handler", "configs"]

/-- Source: the `files` map, listed in the order the `range` visits it; Go
leaves that order unspecified, `mainFirst` picks one of the two. -/
def files (mainFirst : Bool) : List (String × (World → Path → Bool × World)) :=
  if mainFirst then
    [("cmd/main.go", WriteMainFile), ("internal/handler/handler.go", WriteHandlerFile)]
  else
    [("internal/handler/handler.go", WriteHandlerFile), ("cmd/main.go", WriteMainFile)]

/-- Source: `for _, dep := range dependencies`; the flag is false when a
command failed and `log.Fatal` was reached. -/
def installLoop (tool : Tool) (globalPath : Path) : List String → World → Bool × World
  | [], w => (true, w)
  | dep :: rest, w =>
    let installCmd : Cmd := ⟨"go", ["get", dep], globalPath⟩
    let r := execRun tool w installCmd
    if r.1 = false then (false, r.2) else installLoop tool globalPath rest r.2

/-- Source: `for _, dir := range directories`. -/
def mkdirLoop (globalPath : Path) : List String → World → Bool × World
  | [], w => (true, w)
  | dir :: rest, w =>
    let r := osMkdirAll w (filepathJoin globalPath dir) 0o777
    if r.1 = false then (false, r.2) else mkdirLoop globalPath rest r.2

/-- Source: `for filePath, writer := range files`. -/
def writeLoop (globalPath : Path) :
    List (String × (World → Path → Bool × World)) → World → Bool × World
  | [], w => (true, w)
  | (filePath, writer) :: rest, w =>
    let fullPath := filepathJoin globalPath filePath
    let r := writer w fullPath
    if r.1 = false then (false, r.2) else writeLoop globalPath rest r.2

/-- Source: the `Run` function of the `create` command, started on filesystem
`fs` by a process with working directory `cwd`. -/
def create (tool : Tool) (cwd : Path) (mainFirst : Bool) (fs : FS)
    (projectName projectPath : String) : Outcome × World :=
  let w0 : World := ⟨fs, []⟩
  if projectName = "" then
    (Outcome.declined, println w0 "You must supply a project name.")
  else if projectPath = "" then
    (Outcome.declined, println w0 "You must supply a project path.")
  else
    let w1 := println w0 "Creating project..."
    let globalPath := filepathJoin (resolve cwd projectPath) projectName
    let st := osStat w1 globalPath
    if st.1 = true then
      (Outcome.declined, println st.2 "Project directory already exists.")
    else
      let mk := osMkdir st.2 globalPath 0o777
      if mk.1 = false then (Outcome.fatal, mk.2)
      else
        let startGo : Cmd := ⟨"go", ["mod", "init", projectName], globalPath⟩
        let ini := execRun tool mk.2 startGo
        if ini.1 = false then (Outcome.fatal, ini.2)
        else
          let deps := installLoop tool globalPath dependencies ini.2
          if deps.1 = false then (Outcome.fatal, deps.2)
          else
            let dirs := mkdirLoop globalPath directories deps.2
            if dirs.1 = false then (Outcome.fatal, dirs.2)
            else
              let dockerComposePath := filepathJoin globalPath "docker-compose.yml"
              let dc := WriteDockerComposeFile dirs.2 dockerComposePath
              if dc.1 = false then (Outcome.fatal, dc.2)
              else
                let w2 := printlnPath dc.2 "Docker Compose file created at" dockerComposePath
                let fl := writeLoop globalPath (files mainFirst) w2
                if fl.1 = false then (Outcome.fatal, fl.2)
                else (Outcome.done, fl.2)

/-! ## Vocabulary of the statements -/

/-- Target directory of a run: `filepath.Join(projectPath, projectName)`. -/
def target (cwd : Path) (projectName projectPath : String) : Path :=
  filepathJoin (resolve cwd projectPath) projectName

/-- The module-init command `go mod init <name>` run in `g`. -/
def initCmd (projectName : String) (g : Path) : Cmd :=
  ⟨"go", ["mod", "init", projectName], g⟩

/-- The dependency-fetch command `go get <dep>` run in `g`. -/
def getCmd (g : Path) (dep : String) : Cmd :=
  ⟨"go", ["get", dep], g⟩

/-- Filesystem left by running the fetch commands for `ds` one after the other. -/
def stateAfter (tool : Tool) (g : Path) : List String → FS → FS
  | [], fs => fs
  | d :: ds, fs => stateAfter tool g ds (tool (getCmd g d) fs).1

/-- Whether the fetch commands for `ds`, run one after the other, all succeed. -/
def allSucceed (tool : Tool) (g : Path) : List String → FS → Bool
  | [], _ => true
  | d :: ds, fs => (tool (getCmd g d) fs).2 && allSucceed tool g ds (tool (getCmd g d) fs).1

/-- Filesystem left by the module-init command of a run (the initial one when
the run does not get that far). -/
def fsAfterInit (tool : Tool) (cwd : Path) (fs : FS) (n p : String) : FS :=
  match fs.mkdir (target cwd n p) with
  | some fs1 => (tool (initCmd n (target cwd n p)) fs1).1
  | none => fs

/-- Filesystem left by the last dependency-fetch command of a run in which they all ran. -/
def fsAfterDeps (tool : Tool) (cwd : Path) (fs : FS) (n p : String) : FS :=
  stateAfter tool (target cwd n p) dependencies (fsAfterInit tool cwd fs n p)

/-- Whether a call starts an external command. -/
def Event.isRun : Event → Bool
  | Event.run _ => true
  | _ => false

/-- Whether a call can change the filesystem on its own (directory creation or file write). -/
def Event.isWrite : Event → Bool
  | Event.mkdir _ _ => true
  | Event.mkdirAll _ _ => true
  | Event.writeFile _ _ _ => true
  | _ => false

/-- Whether a call creates a subdirectory or writes a template (`os.MkdirAll`, `os.WriteFile`). -/
def Event.isScaffold : Event → Bool
  | Event.mkdirAll _ _ => true
  | Event.writeFile _ _ _ => true
  | _ => false

/-- The two template writes of the `files` loop succeed exactly when, for both
files, the parent is a directory and the entry is not one. -/
def filesWritable (g : Path) (fs : FS) : Prop :=
  fs.ents (g ++ ["cmd", "main.go"]) ≠ some Node.dir ∧ fs.ents (g ++ ["cmd"]) = some Node.dir ∧
  fs.ents (g ++ ["internal", "handler", "handler.go"]) ≠ some Node.dir ∧
  fs.ents (g ++ ["internal", "handler"]) = some Node.dir

instance (g : Path) (fs : FS) : Decidable (filesWritable g fs) := by
  unfold filesWritable
  infer_instance

/-- Trace of the `files` loop in the order `mainFirst` picks. -/
def filesTrace (g : Path) (mainFirst : Bool) : List Event :=
  if mainFirst then
    [Event.writeFile (g ++ ["cmd", "main.go"]) (unlines mainFileLines) 0o644,
     Event.writeFile (g ++ ["internal", "handler", "handler.go"]) (unlines handlerFileLines) 0o644]
  else
    [Event.writeFile (g ++ ["internal", "handler", "handler.go"]) (unlines handlerFileLines) 0o644,
     Event.writeFile (g ++ ["cmd", "main.go"]) (unlines mainFileLines) 0o644]

/-- Calls issued up to and including the creation of the target. -/
def traceToMkdir (g : Path) : List Event :=
  [Event.println "Creating project...", Event.stat g, Event.mkdir g 0o777]

/-- Calls issued up to and including the module-init command. -/
def traceToInit (projectName : String) (g : Path) : List Event :=
  traceToMkdir g ++ [Event.run (initCmd projectName g)]

/-- Calls of a run that fetched every dependency, up to the last fetch. -/
def traceToDeps (projectName : String) (g : Path) : List Event :=
  traceToInit projectName g ++ dependencies.map (fun d => Event.run (getCmd g d))

/-- Calls of the subdirectory phase. -/
def traceSubdirs (g : Path) : List Event :=
  [Event.mkdirAll (g ++ ["cmd"]) 0o777,
   Event.mkdirAll (g ++ ["internal", "handler"]) 0o777,
   Event.mkdirAll (g ++ ["configs"]) 0o777]

/-- Calls that write and announce the compose file. -/
def traceCompose (g : Path) : List Event :=
  [Event.writeFile (g ++ ["docker-compose.yml"]) (unlines composeFileLines) 0o644,
   Event.printlnPath "Docker Compose file created at" (g ++ ["docker-compose.yml"])]

/-- The six entries the listing of a generated project names, relative to the target. -/
def listedEntries : List Path :=
  [["docker-compose.yml"], ["cmd"], ["internal", "handler"], ["configs"],
   ["cmd", "main.go"], ["internal", "handler", "handler.go"]]

/-- The phases of `create` that follow the dependency loop, as a function of
what the loop returned. -/
def createTail (g : Path) (o : Bool) (deps : Bool × World) : Outcome × World :=
  if deps.1 = false then (Outcome.fatal, deps.2)
  else
    let dirs := mkdirLoop g directories deps.2
    if dirs.1 = false then (Outcome.fatal, dirs.2)
    else
      let dc := WriteDockerComposeFile dirs.2 (filepathJoin g "docker-compose.yml")
      if dc.1 = false then (Outcome.fatal, dc.2)
      else
        let fl := writeLoop g (files o)
          (printlnPath dc.2 "Docker Compose file created at" (filepathJoin g "docker-compose.yml"))
        if fl.1 = false then (Outcome.fatal, fl.2)
        else (Outcome.done, fl.2)

/-! ## Reading the compose descriptor -/

/-- Lines of a text: the pieces ended by a newline, and a last piece when it is not empty. -/
def linesAux : List Char → List Char → List String
  | [], [] => []
  | [], cur => [String.mk cur.reverse]
  | c :: cs, cur =>
    if c = '\n' then String.mk cur.reverse :: linesAux cs []
    else linesAux cs (c :: cur)

/-- Lines of a text. -/
def linesOf (s : String) : List String :=
  linesAux s.data []

/-- Number of leading spaces of a line. -/
def indentOf (s : String) : Nat :=
  (s.data.takeWhile (fun c => c == ' ')).length

/-- Lines that follow the first occurrence of the line `header` and are blank
or indented deeper than it. -/
def blockOf (header : String) : List String → List String
  | [] => []
  | l :: ls =>
    if l = header then ls.takeWhile (fun x => x == "" || decide (indentOf header < indentOf x))
    else blockOf header ls

/-- Direct children of the mapping or sequence opened by the line `header`:
the lines of its block at the indentation of the first of them, unindented. -/
def childrenOf (header : String) (ls : List String) : List String :=
  match (blockOf header ls).filter (fun x => x != "") with
  | [] => []
  | c :: rest =>
    ((c :: rest).filter (fun x => indentOf x == indentOf c)).map
      (fun x => String.mk (x.data.drop (indentOf c)))

/-! ## Sample environments -/

/-- Toolchain whose commands all succeed when their directory exists:
`go mod init` leaves a manifest `go.mod`, `go get` leaves a checksum file `go.sum`. -/
def toolOk : Tool := fun c fs =>
  match c.args with
  | "mod" :: _ =>
    match fs.writeFile (c.dir ++ ["go.mod"]) "module\n" with
    | some fs1 => (fs1, true)
    | none => (fs, false)
  | "get" :: _ =>
    match fs.writeFile (c.dir ++ ["go.sum"]) "sums\n" with
    | some fs1 => (fs1, true)
    | none => (fs, false)
  | _ => (fs, true)

/-- Toolchain in which fetching `bad` fails and everything else succeeds. -/
def toolGetFails (bad : String) : Tool := fun c fs =>
  match c.args with
  | ["get", d] => (fs, decide (d ≠ bad))
  | _ => (fs, true)

/-- Filesystem holding `/tmp/out` only. -/
def fsTmpOut : FS :=
  (FS.empty.mkdirAll ["tmp", "out"]).getD FS.empty

/-- Filesystem holding `/tmp/out/demo` only. -/
def fsDemo : FS :=
  (FS.empty.mkdirAll ["tmp", "out", "demo"]).getD FS.empty

/-! ## Lemmas on the model -/

theorem FS.eq_of_ents {a b : FS} (h : a.ents = b.ents) : a = b := by
  cases a; cases b; cases h; rfl

theorem FS.insert_ents (fs : FS) (p : Path) (n : Node) (h1 h2) (q : Path) :
    (fs.insert p n h1 h2).ents q = if q = p then some n else fs.ents q := rfl

theorem FS.mkdir_some {fs fs1 : FS} {p : Path} (h : fs.mkdir p = some fs1) :
    fs.ents p = none ∧ fs.ents p.dropLast = some Node.dir ∧
      ∀ q, fs1.ents q = if q = p then some Node.dir else fs.ents q := by
  unfold FS.mkdir at h
  split_ifs at h with h1 h2
  simp only [Option.some.injEq] at h
  subst h
  exact ⟨h1, h2, fun q => rfl⟩

theorem FS.mkdir_isSome {fs : FS} {p : Path} (h1 : fs.ents p = none)
    (h2 : fs.ents p.dropLast = some Node.dir) : ∃ fs1, fs.mkdir p = some fs1 := by
  unfold FS.mkdir
  simp [h1, h2]

theorem FS.mkdir_none_of_parent {fs : FS} {p : Path}
    (h : fs.ents p.dropLast ≠ some Node.dir) : fs.mkdir p = none := by
  unfold FS.mkdir
  split_ifs <;> simp_all

theorem FS.writeFile_some {fs fs1 : FS} {p : Path} {c : String}
    (h : fs.writeFile p c = some fs1) :
    fs.ents p ≠ some Node.dir ∧ fs.ents p.dropLast = some Node.dir ∧
      ∀ q, fs1.ents q = if q = p then some (Node.file c) else fs.ents q := by
  unfold FS.writeFile at h
  split_ifs at h with h1 h2
  simp only [Option.some.injEq] at h
  subst h
  exact ⟨h1, h2, fun q => rfl⟩

theorem FS.writeFile_isSome (fs : FS) (p : Path) (c : String)
    (h1 : fs.ents p ≠ some Node.dir) (h2 : fs.ents p.dropLast = some Node.dir) :
    ∃ fs1, fs.writeFile p c = some fs1 := by
  unfold FS.writeFile
  simp [h1, h2]

/-- Every ancestor of an entry is a directory. -/
theorem FS.ancestor_dir (fs : FS) : ∀ (p q : Path), fs.ents p ≠ none → q <+: p → q ≠ p →
    fs.ents q = some Node.dir := by
  intro p
  induction p using List.reverseRecOn with
  | nil =>
    intro q _ hq hne
    exact absurd (List.prefix_nil.mp hq) hne
  | append_singleton l a ih =>
    intro q hp hq hne
    have hl : fs.ents l = some Node.dir := by
      have := fs.parent_dir (l ++ [a]) hp
      simpa using this
    rcases List.prefix_concat_iff.mp hq with h | h
    · exact absurd h hne
    · by_cases e : q = l
      · subst e; exact hl
      · exact ih q (by simp [hl]) h e

theorem FS.mkdirAllRev_some {fs : FS} : ∀ (rp : List String) {fs1 : FS},
    fs.mkdirAllRev rp = some fs1 →
    ∀ q, fs1.ents q = if q <+: rp.reverse then some Node.dir else fs.ents q := by
  intro rp
  induction rp with
  | nil =>
    intro fs1 h q
    simp only [FS.mkdirAllRev, Option.some.injEq] at h
    subst h
    by_cases hq : q = []
    · subst hq; simp [fs.root_dir]
    · simp [hq]
  | cons c r ih =>
    intro fs1 h q
    unfold FS.mkdirAllRev at h
    split at h
    · rename_i hd
      simp only [Option.some.injEq] at h
      subst h
      by_cases hq : q <+: (c :: r).reverse
      · simp only [hq, if_true]
        by_cases e : q = (c :: r).reverse
        · rw [e]; exact hd
        · exact fs.ancestor_dir _ q (by rw [hd]; simp) hq e
      · simp only [hq, if_false]
    · simp at h
    · split at h
      · simp at h
      · rename_i fs2 h2
        have h3 := ih h2
        obtain ⟨_, _, h4⟩ := FS.mkdir_some h
        rw [h4 q, h3 q]
        simp only [List.reverse_cons, List.prefix_concat_iff]
        by_cases e : q = r.reverse ++ [c]
        · simp [e]
        · simp [e]

theorem FS.mkdirAll_some {fs fs1 : FS} {p : Path} (h : fs.mkdirAll p = some fs1) :
    ∀ q, fs1.ents q = if q <+: p then some Node.dir else fs.ents q := by
  intro q
  have := FS.mkdirAllRev_some p.reverse h q
  simpa using this

theorem join_cmd (g : Path) : filepathJoin g "cmd" = g ++ ["cmd"] := by
  simp [filepathJoin, splitSlash, splitSlashAux, walk]

theorem join_handlerDir (g : Path) :
    filepathJoin g "internal/handler" = g ++ ["internal", "handler"] := by
  simp [filepathJoin, splitSlash, splitSlashAux, walk]

theorem join_configs (g : Path) : filepathJoin g "configs" = g ++ ["configs"] := by
  simp [filepathJoin, splitSlash, splitSlashAux, walk]

theorem join_compose (g : Path) :
    filepathJoin g "docker-compose.yml" = g ++ ["docker-compose.yml"] := by
  simp [filepathJoin, splitSlash, splitSlashAux, walk]

theorem join_main (g : Path) : filepathJoin g "cmd/main.go" = g ++ ["cmd", "main.go"] := by
  simp [filepathJoin, splitSlash, splitSlashAux, walk]

theorem join_handler (g : Path) :
    filepathJoin g "internal/handler/handler.go" = g ++ ["internal", "handler", "handler.go"] := by
  simp [filepathJoin, splitSlash, splitSlashAux, walk]

theorem osMkdir_ok {w : World} {p : Path} {m : Nat} (h : ¬ (osMkdir w p m).1 = false) :
    ∃ fs1, w.fs.mkdir p = some fs1 ∧ (osMkdir w p m).2 = ⟨fs1, w.trace ++ [Event.mkdir p m]⟩ := by
  unfold osMkdir at *
  cases hm : w.fs.mkdir p with
  | none => simp [hm] at h
  | some fs1 => exact ⟨fs1, rfl, rfl⟩

theorem osMkdir_fail {w : World} {p : Path} {m : Nat} (h : (osMkdir w p m).1 = false) :
    w.fs.mkdir p = none ∧ (osMkdir w p m).2 = ⟨w.fs, w.trace ++ [Event.mkdir p m]⟩ := by
  unfold osMkdir at *
  cases hm : w.fs.mkdir p with
  | none => exact ⟨rfl, rfl⟩
  | some fs1 => simp [hm] at h

theorem osMkdirAll_ok {w : World} {p : Path} {m : Nat} (h : ¬ (osMkdirAll w p m).1 = false) :
    ∃ fs1, w.fs.mkdirAll p = some fs1 ∧
      (osMkdirAll w p m).2 = ⟨fs1, w.trace ++ [Event.mkdirAll p m]⟩ := by
  unfold osMkdirAll at *
  cases hm : w.fs.mkdirAll p with
  | none => simp [hm] at h
  | some fs1 => exact ⟨fs1, rfl, rfl⟩

theorem osWriteFile_ok {w : World} {p : Path} {c : String} {m : Nat}
    (h : ¬ (osWriteFile w p c m).1 = false) :
    ∃ fs1, w.fs.writeFile p c = some fs1 ∧
      osWriteFile w p c m = (true, ⟨fs1, w.trace ++ [Event.writeFile p c m]⟩) := by
  unfold osWriteFile at *
  cases hm : w.fs.writeFile p c with
  | none => simp [hm] at h
  | some fs1 => exact ⟨fs1, rfl, rfl⟩

theorem osWriteFile_of_some {fs fs1 : FS} {p : Path} {c : String} (t : List Event) (m : Nat)
    (h : fs.writeFile p c = some fs1) :
    osWriteFile ⟨fs, t⟩ p c m = (true, ⟨fs1, t ++ [Event.writeFile p c m]⟩) := by
  unfold osWriteFile
  simp only [h]

theorem installLoop_fst (tool : Tool) (g : Path) : ∀ (ds : List String) (w : World),
    (installLoop tool g ds w).1 = allSucceed tool g ds w.fs := by
  intro ds
  induction ds with
  | nil => intro w; rfl
  | cons d ds ih =>
    intro w
    simp only [installLoop, allSucceed, execRun]
    cases ht : (tool ⟨"go", ["get", d], g⟩ w.fs).2
    · simp [getCmd, ht]
    · simp [getCmd, ht, ih]

theorem installLoop_ok (tool : Tool) (g : Path) : ∀ (ds : List String) (w : World),
    allSucceed tool g ds w.fs = true →
    installLoop tool g ds w =
      (true, ⟨stateAfter tool g ds w.fs, w.trace ++ ds.map (fun d => Event.run (getCmd g d))⟩) := by
  intro ds
  induction ds with
  | nil => intro w _; simp [installLoop, stateAfter]
  | cons d ds ih =>
    intro w h
    simp only [allSucceed, Bool.and_eq_true] at h
    have h1 : (tool ⟨"go", ["get", d], g⟩ w.fs).2 = true := h.1
    simp only [installLoop, execRun, h1]
    rw [ih _ h.2]
    simp [stateAfter, getCmd]

theorem installLoop_fail (tool : Tool) (g : Path) (d : String) (post : List String) :
    ∀ (pre : List String) (w : World), allSucceed tool g pre w.fs = true →
    (tool (getCmd g d) (stateAfter tool g pre w.fs)).2 = false →
    installLoop tool g (pre ++ d :: post) w =
      (false, ⟨(tool (getCmd g d) (stateAfter tool g pre w.fs)).1,
        w.trace ++ (pre ++ [d]).map (fun d => Event.run (getCmd g d))⟩) := by
  intro pre
  induction pre with
  | nil =>
    intro w _ hf
    simp only [stateAfter, getCmd] at hf
    simp [installLoop, execRun, hf, stateAfter, getCmd]
  | cons e pre ih =>
    intro w h hf
    simp only [allSucceed, Bool.and_eq_true] at h
    have h1 : (tool ⟨"go", ["get", e], g⟩ w.fs).2 = true := h.1
    have h2 := ih ⟨(tool (getCmd g e) w.fs).1, w.trace ++ [Event.run (getCmd g e)]⟩ h.2 hf
    simp only [getCmd] at h2
    simp only [List.cons_append, installLoop, execRun, h1, Bool.true_eq_false, if_false]
    refine Eq.trans h2 ?_
    simp [stateAfter, getCmd]

theorem mkdirLoop_cons {g : Path} {d : String} {rest : List String} {w : World}
    (h : ¬ (mkdirLoop g (d :: rest) w).1 = false) :
    ∃ fs1, w.fs.mkdirAll (filepathJoin g d) = some fs1 ∧
      mkdirLoop g (d :: rest) w =
        mkdirLoop g rest ⟨fs1, w.trace ++ [Event.mkdirAll (filepathJoin g d) 0o777]⟩ := by
  simp only [mkdirLoop, osMkdirAll] at h ⊢
  cases hm : w.fs.mkdirAll (filepathJoin g d) with
  | none => simp [hm] at h
  | some fs1 => exact ⟨fs1, rfl, by simp⟩

theorem writeLoop_cons {g : Path} {filePath : String}
    (writer : World → Path → Bool × World) (c : String) (m : Nat)
    {rest : List (String × (World → Path → Bool × World))} {w : World}
    (hw : ∀ w p, writer w p = osWriteFile w p c m)
    (h : ¬ (writeLoop g ((filePath, writer) :: rest) w).1 = false) :
    ∃ fs1, w.fs.writeFile (filepathJoin g filePath) c = some fs1 ∧
      writeLoop g ((filePath, writer) :: rest) w =
        writeLoop g rest ⟨fs1, w.trace ++ [Event.writeFile (filepathJoin g filePath) c m]⟩ := by
  simp only [writeLoop, hw, osWriteFile] at h ⊢
  cases hm : w.fs.writeFile (filepathJoin g filePath) c with
  | none => simp [hm] at h
  | some fs1 => exact ⟨fs1, rfl, by simp⟩

theorem mkdirLoop_dirs {g : Path} {w : World} (h : ¬ (mkdirLoop g directories w).1 = false) :
    ∃ fs4, mkdirLoop g directories w =
        (true, ⟨fs4, w.trace ++ [Event.mkdirAll (g ++ ["cmd"]) 0o777,
          Event.mkdirAll (g ++ ["internal", "handler"]) 0o777,
          Event.mkdirAll (g ++ ["configs"]) 0o777]⟩) ∧
      ∀ q, fs4.ents q =
        if q <+: g ++ ["cmd"] ∨ q <+: g ++ ["internal", "handler"] ∨ q <+: g ++ ["configs"]
        then some Node.dir else w.fs.ents q := by
  unfold directories at h ⊢
  obtain ⟨f1, e1, r1⟩ := mkdirLoop_cons h
  rw [r1] at h ⊢
  obtain ⟨f2, e2, r2⟩ := mkdirLoop_cons h
  rw [r2] at h ⊢
  obtain ⟨f3, e3, r3⟩ := mkdirLoop_cons h
  rw [r3]
  simp only [join_cmd, join_handlerDir, join_configs] at e1 e2 e3 ⊢
  refine ⟨f3, by simp [mkdirLoop], ?_⟩
  intro q
  rw [FS.mkdirAll_some e3 q, FS.mkdirAll_some e2 q, FS.mkdirAll_some e1 q]
  by_cases a : q <+: g ++ ["cmd"] <;> by_cases b : q <+: g ++ ["internal", "handler"] <;>
    by_cases c : q <+: g ++ ["configs"] <;> simp [a, b, c]

theorem writeLoop_files {g : Path} {w : World} {o : Bool}
    (h : ¬ (writeLoop g (files o) w).1 = false) :
    filesWritable g w.fs ∧
    ∃ fs6, writeLoop g (files o) w = (true, ⟨fs6, w.trace ++ filesTrace g o⟩) ∧
      ∀ q, fs6.ents q =
        if q = g ++ ["cmd", "main.go"] then some (Node.file (unlines mainFileLines))
        else if q = g ++ ["internal", "handler", "handler.go"] then
          some (Node.file (unlines handlerFileLines))
        else w.fs.ents q := by
  cases o
  · simp only [files, Bool.false_eq_true, if_false] at h ⊢
    obtain ⟨f1, e1, r1⟩ :=
      writeLoop_cons WriteHandlerFile (unlines handlerFileLines) 0o644 (fun _ _ => rfl) h
    rw [r1] at h ⊢
    obtain ⟨f2, e2, r2⟩ :=
      writeLoop_cons WriteMainFile (unlines mainFileLines) 0o644 (fun _ _ => rfl) h
    rw [r2]
    simp only [join_main, join_handler] at e1 e2 ⊢
    obtain ⟨a1, a2, a3⟩ := FS.writeFile_some e1
    obtain ⟨b1, b2, b3⟩ := FS.writeFile_some e2
    simp only [a3] at b1 b2
    simp at a2 b1 b2
    refine ⟨⟨b1, b2, a1, a2⟩, f2, by simp [writeLoop, filesTrace], ?_⟩
    intro q
    rw [b3 q, a3 q]
  · simp only [files, if_true] at h ⊢
    obtain ⟨f1, e1, r1⟩ :=
      writeLoop_cons WriteMainFile (unlines mainFileLines) 0o644 (fun _ _ => rfl) h
    rw [r1] at h ⊢
    obtain ⟨f2, e2, r2⟩ :=
      writeLoop_cons WriteHandlerFile (unlines handlerFileLines) 0o644 (fun _ _ => rfl) h
    rw [r2]
    simp only [join_main, join_handler] at e1 e2 ⊢
    obtain ⟨a1, a2, a3⟩ := FS.writeFile_some e1
    obtain ⟨b1, b2, b3⟩ := FS.writeFile_some e2
    simp only [a3] at b1 b2
    simp at a2 b1 b2
    refine ⟨⟨a1, a2, b1, b2⟩, f2, by simp [writeLoop, filesTrace], ?_⟩
    intro q
    rw [b3 q, a3 q]
    by_cases x : q = g ++ ["cmd", "main.go"]
    · have y : ¬ q = g ++ ["internal", "handler", "handler.go"] := by rw [x]; simp
      simp [x]
    · simp [x]

theorem writeLoop_of_writable {g : Path} (w : World) (o : Bool) (h : filesWritable g w.fs) :
    ¬ (writeLoop g (files o) w).1 = false := by
  obtain ⟨h1, h2, h3, h4⟩ := h
  obtain ⟨wf, wt⟩ := w
  cases o
  · obtain ⟨f1, e1⟩ := FS.writeFile_isSome wf
      (g ++ ["internal", "handler", "handler.go"]) (unlines handlerFileLines) h3
      (by simpa using h4)
    obtain ⟨_, _, a3⟩ := FS.writeFile_some e1
    obtain ⟨f2, e2⟩ := FS.writeFile_isSome f1
      (g ++ ["cmd", "main.go"]) (unlines mainFileLines)
      (by rw [a3]; simpa using h1) (by rw [a3]; simpa using h2)
    simp [files, writeLoop, join_main, join_handler, WriteMainFile, WriteHandlerFile,
      osWriteFile_of_some _ _ e1, osWriteFile_of_some _ _ e2]
  · obtain ⟨f1, e1⟩ := FS.writeFile_isSome wf
      (g ++ ["cmd", "main.go"]) (unlines mainFileLines) h1 (by simpa using h2)
    obtain ⟨_, _, a3⟩ := FS.writeFile_some e1
    obtain ⟨f2, e2⟩ := FS.writeFile_isSome f1
      (g ++ ["internal", "handler", "handler.go"]) (unlines handlerFileLines)
      (by rw [a3]; simpa using h3) (by rw [a3]; simpa using h4)
    simp [files, writeLoop, join_main, join_handler, WriteMainFile, WriteHandlerFile,
      osWriteFile_of_some _ _ e1, osWriteFile_of_some _ _ e2]

theorem create_no_name (tool : Tool) (cwd : Path) (o : Bool) (fs : FS) (p : String) :
    create tool cwd o fs "" p =
      (Outcome.declined, ⟨fs, [Event.println "You must supply a project name."]⟩) := by
  simp [create, println]

theorem create_no_path (tool : Tool) (cwd : Path) (o : Bool) (fs : FS) {n : String}
    (hn : n ≠ "") :
    create tool cwd o fs n "" =
      (Outcome.declined, ⟨fs, [Event.println "You must supply a project path."]⟩) := by
  simp [create, println, hn]

theorem create_exists {tool : Tool} {cwd : Path} {o : Bool} {fs : FS} {n p : String}
    (hn : n ≠ "") (hp : p ≠ "") (hg : fs.ents (target cwd n p) ≠ none) :
    create tool cwd o fs n p = (Outcome.declined, ⟨fs,
      [Event.println "Creating project...", Event.stat (target cwd n p),
       Event.println "Project directory already exists."]⟩) := by
  have hs : (fs.ents (filepathJoin (resolve cwd p) n)).isSome = true :=
    Option.isSome_iff_ne_none.mpr hg
  simp [create, hn, hp, println, osStat, hs, target]

theorem create_mkdir_fail {tool : Tool} {cwd : Path} {o : Bool} {fs : FS} {n p : String}
    (hn : n ≠ "") (hp : p ≠ "") (hg : fs.ents (target cwd n p) = none)
    (hmk : fs.mkdir (target cwd n p) = none) :
    create tool cwd o fs n p = (Outcome.fatal, ⟨fs, traceToMkdir (target cwd n p)⟩) := by
  simp only [target] at hg hmk
  simp [create, hn, hp, println, osStat, osMkdir, hg, hmk, traceToMkdir, target]

theorem create_init_fail {tool : Tool} {cwd : Path} {o : Bool} {fs fs1 : FS} {n p : String}
    (hn : n ≠ "") (hp : p ≠ "") (hg : fs.ents (target cwd n p) = none)
    (hmk : fs.mkdir (target cwd n p) = some fs1)
    (hini : (tool (initCmd n (target cwd n p)) fs1).2 = false) :
    create tool cwd o fs n p =
      (Outcome.fatal, ⟨(tool (initCmd n (target cwd n p)) fs1).1,
        traceToInit n (target cwd n p)⟩) := by
  simp only [target, initCmd] at hg hmk hini
  simp [create, hn, hp, println, osStat, osMkdir, execRun, hg, hmk, hini, traceToMkdir,
    traceToInit, target, initCmd]

theorem create_eq_tail {tool : Tool} {cwd : Path} {o : Bool} {fs fs1 : FS} {n p : String}
    (hn : n ≠ "") (hp : p ≠ "") (hg : fs.ents (target cwd n p) = none)
    (hmk : fs.mkdir (target cwd n p) = some fs1)
    (hini : (tool (initCmd n (target cwd n p)) fs1).2 = true) :
    create tool cwd o fs n p =
      createTail (target cwd n p) o (installLoop tool (target cwd n p) dependencies
        ⟨(tool (initCmd n (target cwd n p)) fs1).1, traceToInit n (target cwd n p)⟩) := by
  simp only [target, initCmd] at hg hmk hini
  simp [create, createTail, hn, hp, println, osStat, osMkdir, execRun, hg, hmk, hini,
    traceToMkdir, traceToInit, target, initCmd]

/-- A run that does not stop at validation or at the existence probe found the
target absent, and if it does not stop at `os.Mkdir` the directory was created. -/
theorem create_inv {tool : Tool} {cwd : Path} {o : Bool} {fs : FS} {n p : String}
    (h : (create tool cwd o fs n p).1 = Outcome.done) :
    n ≠ "" ∧ p ≠ "" ∧ fs.ents (target cwd n p) = none ∧
      ∃ fs1, fs.mkdir (target cwd n p) = some fs1 ∧
        (tool (initCmd n (target cwd n p)) fs1).2 = true := by
  by_cases hn : n = ""
  · subst hn
    rw [create_no_name] at h; cases h
  by_cases hp : p = ""
  · subst hp
    rw [create_no_path tool cwd o fs hn] at h; cases h
  by_cases hg : fs.ents (target cwd n p) = none
  · refine ⟨hn, hp, hg, ?_⟩
    cases hmk : fs.mkdir (target cwd n p) with
    | none => rw [create_mkdir_fail hn hp hg hmk] at h; cases h
    | some fs1 =>
      refine ⟨fs1, rfl, ?_⟩
      by_cases hini : (tool (initCmd n (target cwd n p)) fs1).2 = false
      · rw [create_init_fail hn hp hg hmk hini] at h; cases h
      · simpa using hini
  · rw [create_exists hn hp hg] at h; cases h

theorem createTail_done {g : Path} {o : Bool} {deps : Bool × World}
    (h : (createTail g o deps).1 = Outcome.done) :
    deps.1 = true ∧ ∃ fs4 fs5 fs6 : FS,
      (∀ q, fs4.ents q =
        if q <+: g ++ ["cmd"] ∨ q <+: g ++ ["internal", "handler"] ∨ q <+: g ++ ["configs"]
        then some Node.dir else deps.2.fs.ents q) ∧
      fs4.writeFile (g ++ ["docker-compose.yml"]) (unlines composeFileLines) = some fs5 ∧
      filesWritable g fs5 ∧
      (∀ q, fs6.ents q =
        if q = g ++ ["cmd", "main.go"] then some (Node.file (unlines mainFileLines))
        else if q = g ++ ["internal", "handler", "handler.go"] then
          some (Node.file (unlines handlerFileLines))
        else fs5.ents q) ∧
      createTail g o deps = (Outcome.done,
        ⟨fs6, deps.2.trace ++ traceSubdirs g ++ traceCompose g ++ filesTrace g o⟩) := by
  unfold createTail at h ⊢
  dsimp only at h ⊢
  split_ifs at h with h0 h1 h2 h3
  rw [if_neg h0, if_neg h1, if_neg h2, if_neg h3]
  obtain ⟨fs4, r1, c1⟩ := mkdirLoop_dirs h1
  rw [r1] at h2 h3 ⊢
  simp only [WriteDockerComposeFile, join_compose] at h2 h3 ⊢
  obtain ⟨fs5, e2, r2⟩ := osWriteFile_ok h2
  rw [r2] at h3 ⊢
  obtain ⟨hw, fs6, r3, c3⟩ := writeLoop_files h3
  rw [r3]
  refine ⟨by simpa using h0, fs4, fs5, fs6, c1, e2, hw, c3, ?_⟩
  simp [traceSubdirs, traceCompose, printlnPath]

theorem installLoop_trace (tool : Tool) (g : Path) : ∀ (ds : List String) (w : World),
    ∃ k, k ≤ ds.length ∧ (installLoop tool g ds w).2.trace =
      w.trace ++ (ds.take k).map (fun d => Event.run (getCmd g d)) := by
  intro ds
  induction ds with
  | nil => intro w; exact ⟨0, by simp, by simp [installLoop]⟩
  | cons d ds ih =>
    intro w
    simp only [installLoop, execRun]
    split_ifs with h
    · exact ⟨1, by simp, by simp [getCmd]⟩
    · obtain ⟨k, hk, e⟩ := ih ⟨(tool ⟨"go", ["get", d], g⟩ w.fs).1,
        w.trace ++ [Event.run ⟨"go", ["get", d], g⟩]⟩
      exact ⟨k + 1, by simpa using hk, by rw [e]; simp [getCmd]⟩

theorem mkdirLoop_trace (g : Path) : ∀ (ds : List String) (w : World),
    ∃ post, (mkdirLoop g ds w).2.trace = w.trace ++ post ∧ ∀ e ∈ post, e.isRun = false := by
  intro ds
  induction ds with
  | nil => intro w; exact ⟨[], by simp [mkdirLoop], by simp⟩
  | cons d ds ih =>
    intro w
    simp only [mkdirLoop, osMkdirAll]
    cases hm : w.fs.mkdirAll (filepathJoin g d) with
    | none => exact ⟨[Event.mkdirAll (filepathJoin g d) 0o777], by simp, by simp [Event.isRun]⟩
    | some fs1 =>
      obtain ⟨post, e, hp⟩ := ih ⟨fs1, w.trace ++ [Event.mkdirAll (filepathJoin g d) 0o777]⟩
      refine ⟨Event.mkdirAll (filepathJoin g d) 0o777 :: post, ?_, ?_⟩
      · simp only [Bool.true_eq_false, if_false]
        rw [e]; simp
      · intro x hx
        rcases List.mem_cons.mp hx with rfl | hx
        · rfl
        · exact hp x hx

theorem osWriteFile_trace (w : World) (p : Path) (c : String) (m : Nat) :
    (osWriteFile w p c m).2.trace = w.trace ++ [Event.writeFile p c m] := by
  unfold osWriteFile
  cases w.fs.writeFile p c <;> rfl

theorem writeLoop_trace_gen (g : Path) :
    ∀ (fl : List (String × (World → Path → Bool × World))),
    (∀ x ∈ fl, ∀ w p, ∃ c m, x.2 w p = osWriteFile w p c m) →
    ∀ w : World, ∃ post, (writeLoop g fl w).2.trace = w.trace ++ post ∧
      ∀ e ∈ post, e.isRun = false := by
  intro fl
  induction fl with
  | nil => intro _ w; exact ⟨[], by simp [writeLoop], by simp⟩
  | cons x rest ih =>
    intro hx w
    obtain ⟨fp, wr⟩ := x
    obtain ⟨c, m, hw⟩ := hx (fp, wr) (List.mem_cons_self _ _) w (filepathJoin g fp)
    simp only at hw
    simp only [writeLoop, hw]
    split_ifs with h
    · exact ⟨[Event.writeFile (filepathJoin g fp) c m], osWriteFile_trace _ _ _ _,
        by simp [Event.isRun]⟩
    · obtain ⟨post, e, hp⟩ := ih (fun y hy => hx y (List.mem_cons_of_mem _ hy))
        (osWriteFile w (filepathJoin g fp) c m).2
      refine ⟨Event.writeFile (filepathJoin g fp) c m :: post, ?_, ?_⟩
      · rw [e, osWriteFile_trace]; simp
      · intro y hy
        rcases List.mem_cons.mp hy with rfl | hy
        · rfl
        · exact hp y hy

theorem writeLoop_trace (g : Path) (o : Bool) (w : World) :
    ∃ post, (writeLoop g (files o) w).2.trace = w.trace ++ post ∧
      ∀ e ∈ post, e.isRun = false := by
  apply writeLoop_trace_gen
  intro x hx w p
  cases o <;> simp only [files, Bool.false_eq_true, if_false, if_true, List.mem_cons,
    List.mem_singleton, List.not_mem_nil, or_false] at hx <;> rcases hx with rfl | rfl
  · exact ⟨_, _, rfl⟩
  · exact ⟨_, _, rfl⟩
  · exact ⟨_, _, rfl⟩
  · exact ⟨_, _, rfl⟩

theorem createTail_trace (g : Path) (o : Bool) (deps : Bool × World) :
    ∃ post, (createTail g o deps).2.trace = deps.2.trace ++ post ∧
      ∀ e ∈ post, e.isRun = false := by
  obtain ⟨p1, e1, q1⟩ := mkdirLoop_trace g directories deps.2
  obtain ⟨p3, e3, q3⟩ := writeLoop_trace g o (printlnPath (WriteDockerComposeFile
    (mkdirLoop g directories deps.2).2 (filepathJoin g "docker-compose.yml")).2
    "Docker Compose file created at" (filepathJoin g "docker-compose.yml"))
  have e2 : (WriteDockerComposeFile (mkdirLoop g directories deps.2).2
      (filepathJoin g "docker-compose.yml")).2.trace = deps.2.trace ++ (p1 ++
      [Event.writeFile (filepathJoin g "docker-compose.yml") (unlines composeFileLines) 0o644]) := by
    simp only [WriteDockerComposeFile]
    rw [osWriteFile_trace, e1, List.append_assoc]
  have q2 : ∀ e ∈ p1 ++ [Event.writeFile (filepathJoin g "docker-compose.yml")
      (unlines composeFileLines) 0o644], e.isRun = false := by
    intro x hx
    rcases List.mem_append.mp hx with hx | hx
    · exact q1 x hx
    · simp only [List.mem_singleton] at hx
      subst hx; rfl
  have e4 : (writeLoop g (files o) (printlnPath (WriteDockerComposeFile
      (mkdirLoop g directories deps.2).2 (filepathJoin g "docker-compose.yml")).2
      "Docker Compose file created at" (filepathJoin g "docker-compose.yml"))).2.trace =
      deps.2.trace ++ (p1 ++ [Event.writeFile (filepathJoin g "docker-compose.yml")
        (unlines composeFileLines) 0o644] ++ [Event.printlnPath "Docker Compose file created at"
        (filepathJoin g "docker-compose.yml")] ++ p3) := by
    rw [e3]
    simp only [printlnPath]
    rw [e2]
    simp
  have q4 : ∀ e ∈ p1 ++ [Event.writeFile (filepathJoin g "docker-compose.yml")
      (unlines composeFileLines) 0o644] ++ [Event.printlnPath "Docker Compose file created at"
      (filepathJoin g "docker-compose.yml")] ++ p3, e.isRun = false := by
    intro x hx
    rcases List.mem_append.mp hx with hx | hx
    · rcases List.mem_append.mp hx with hx | hx
      · exact q2 x hx
      · simp only [List.mem_singleton] at hx
        subst hx; rfl
    · exact q3 x hx
  unfold createTail
  dsimp only
  split_ifs with h0 h1 h2 h3
  · exact ⟨[], by simp, by simp⟩
  · exact ⟨p1, e1, q1⟩
  · exact ⟨_, e2, q2⟩
  · exact ⟨_, e4, q4⟩
  · exact ⟨_, e4, q4⟩

/-- Everything known about a run that reached the end of `Run`. -/
theorem create_done_spec {tool : Tool} {cwd : Path} {o : Bool} {fs : FS} {n p : String}
    (h : (create tool cwd o fs n p).1 = Outcome.done) :
    n ≠ "" ∧ p ≠ "" ∧ fs.ents (target cwd n p) = none ∧
    ∃ fs5 fs6 : FS,
      (∀ q, fs5.ents q =
        if q = target cwd n p ++ ["docker-compose.yml"] then
          some (Node.file (unlines composeFileLines))
        else if q <+: target cwd n p ++ ["cmd"] ∨ q <+: target cwd n p ++ ["internal", "handler"]
          ∨ q <+: target cwd n p ++ ["configs"] then some Node.dir
        else (fsAfterDeps tool cwd fs n p).ents q) ∧
      filesWritable (target cwd n p) fs5 ∧
      (∀ q, fs6.ents q =
        if q = target cwd n p ++ ["cmd", "main.go"] then
          some (Node.file (unlines mainFileLines))
        else if q = target cwd n p ++ ["internal", "handler", "handler.go"] then
          some (Node.file (unlines handlerFileLines))
        else fs5.ents q) ∧
      create tool cwd o fs n p = (Outcome.done,
        ⟨fs6, traceToDeps n (target cwd n p) ++ traceSubdirs (target cwd n p) ++
          traceCompose (target cwd n p) ++ filesTrace (target cwd n p) o⟩) := by
  obtain ⟨hn, hp, hg, fs1, hmk, hini⟩ := create_inv h
  refine ⟨hn, hp, hg, ?_⟩
  rw [create_eq_tail hn hp hg hmk hini] at h ⊢
  obtain ⟨hd, fs4, fs5, fs6, c1, e2, hw, c3, r⟩ := createTail_done h
  rw [installLoop_fst] at hd
  rw [installLoop_ok _ _ _ _ hd] at c1 r ⊢
  obtain ⟨_, _, c2⟩ := FS.writeFile_some e2
  refine ⟨fs5, fs6, ?_, hw, c3, ?_⟩
  · intro q
    rw [c2 q, c1 q]
    simp only [fsAfterDeps, fsAfterInit, hmk]
  · rw [r]
    simp [traceToDeps]

theorem prefix_one (rel : Path) (a : String) : rel <+: [a] ↔ rel = [] ∨ rel = [a] := by
  cases rel with
  | nil => simp
  | cons x t => simp [List.cons_prefix_cons]

theorem prefix_two (rel : Path) (a b : String) :
    rel <+: [a, b] ↔ rel = [] ∨ rel = [a] ∨ rel = [a, b] := by
  cases rel with
  | nil => simp
  | cons x t =>
    simp only [List.cons_prefix_cons, prefix_one, reduceCtorEq, List.cons.injEq, false_or]
    constructor
    · rintro ⟨rfl, h | h⟩
      · exact Or.inl ⟨rfl, h⟩
      · exact Or.inr ⟨rfl, h⟩
    · rintro (⟨rfl, h⟩ | ⟨rfl, h⟩)
      · exact ⟨rfl, Or.inl h⟩
      · exact ⟨rfl, Or.inr h⟩

/-- Final filesystem of a run that reached the end of `Run`, entry by entry
below and at the target. -/
theorem create_done_ents {tool : Tool} {cwd : Path} {o : Bool} {fs : FS} {n p : String}
    (h : (create tool cwd o fs n p).1 = Outcome.done) (rel : Path) :
    (create tool cwd o fs n p).2.fs.ents (target cwd n p ++ rel) =
      if rel = ["cmd", "main.go"] then some (Node.file (unlines mainFileLines))
      else if rel = ["internal", "handler", "handler.go"] then
        some (Node.file (unlines handlerFileLines))
      else if rel = ["docker-compose.yml"] then some (Node.file (unlines composeFileLines))
      else if rel = [] ∨ rel = ["cmd"] ∨ rel = ["internal"] ∨ rel = ["internal", "handler"] ∨
        rel = ["configs"] then some Node.dir
      else (fsAfterDeps tool cwd fs n p).ents (target cwd n p ++ rel) := by
  obtain ⟨_, _, _, fs5, fs6, c5, _, c6, r⟩ := create_done_spec h
  rw [r]
  simp only [c6, c5, List.append_cancel_left_eq, List.prefix_append_right_inj, prefix_one,
    prefix_two]
  by_cases h1 : rel = ["cmd", "main.go"]
  · simp [h1]
  by_cases h2 : rel = ["internal", "handler", "handler.go"]
  · simp [h2]
  by_cases h3 : rel = ["docker-compose.yml"]
  · simp [h3]
  simp only [h1, h2, h3, if_false]
  by_cases h4 : rel = []
  · simp [h4]
  by_cases h5 : rel = ["cmd"]
  · simp [h5]
  by_cases h6 : rel = ["internal"]
  · simp [h6]
  by_cases h7 : rel = ["internal", "handler"]
  · simp [h7]
  by_cases h8 : rel = ["configs"]
  · simp [h8]
  simp [h4, h5, h6, h7, h8]

theorem createTail_false (g : Path) (o : Bool) (w : World) :
    createTail g o (false, w) = (Outcome.fatal, w) := by
  simp [createTail]

theorem createTail_swap {g : Path} {o : Bool} (o2 : Bool) {deps : Bool × World}
    (h : (createTail g o deps).1 = Outcome.done) : (createTail g o2 deps).1 = Outcome.done := by
  unfold createTail at h ⊢
  dsimp only at h ⊢
  split_ifs at h with h0 h1 h2 h3
  have h4 := writeLoop_of_writable _ o2 (writeLoop_files h3).1
  rw [if_neg h0, if_neg h1, if_neg h2, if_neg h4]

/-! ## Verified claims -/

/-- C1: when the name or the path is empty, whatever the filesystem and the
toolchain, the run returns normally (exit status 0), the filesystem is the one
it started with, and the only call issued is one `Println`: no external
command and no filesystem change. -/
theorem create_empty_input_no_effect (tool : Tool) (cwd : Path) (mainFirst : Bool) (fs : FS)
    (projectName projectPath : String) (h : projectName = "" ∨ projectPath = "") :
    (create tool cwd mainFirst fs projectName projectPath).1 = Outcome.declined ∧
    (create tool cwd mainFirst fs projectName projectPath).1.exitCode = 0 ∧
    (create tool cwd mainFirst fs projectName projectPath).2.fs = fs ∧
    ∀ e ∈ (create tool cwd mainFirst fs projectName projectPath).2.trace,
      e.isRun = false ∧ e.isWrite = false := by
  by_cases hn : projectName = ""
  · subst hn
    rw [create_no_name]
    simp [Outcome.exitCode, Event.isRun, Event.isWrite]
  · have hp : projectPath = "" := h.resolve_left hn
    subst hp
    rw [create_no_path tool cwd mainFirst fs hn]
    simp [Outcome.exitCode, Event.isRun, Event.isWrite]

/-- Empty name with path `/tmp/out` on a filesystem holding `/tmp/out`. -/
theorem create_empty_input_no_effect_witness :
    ("" = "" ∨ "/tmp/out" = "") ∧
    (create toolOk [] true fsTmpOut "" "/tmp/out").1.exitCode = 0 ∧
    (create toolOk [] true fsTmpOut "" "/tmp/out").2.fs = fsTmpOut :=
  ⟨Or.inl rfl,
   (create_empty_input_no_effect toolOk [] true fsTmpOut "" "/tmp/out" (Or.inl rfl)).2.1,
   (create_empty_input_no_effect toolOk [] true fsTmpOut "" "/tmp/out" (Or.inl rfl)).2.2.1⟩

/-- C2: with a non-empty name and path whose target `join(path, name)` already
exists, the run prints "Project directory already exists.", returns normally
(exit status 0), leaves the filesystem as it was, and issues no external
command and no filesystem change. -/
theorem create_existing_target_declines (tool : Tool) (cwd : Path) (mainFirst : Bool) (fs : FS)
    (projectName projectPath : String) (hn : projectName ≠ "") (hp : projectPath ≠ "")
    (hex : fs.ents (target cwd projectName projectPath) ≠ none) :
    (create tool cwd mainFirst fs projectName projectPath).1 = Outcome.declined ∧
    (create tool cwd mainFirst fs projectName projectPath).1.exitCode = 0 ∧
    (create tool cwd mainFirst fs projectName projectPath).2.fs = fs ∧
    Event.println "Project directory already exists." ∈
      (create tool cwd mainFirst fs projectName projectPath).2.trace ∧
    ∀ e ∈ (create tool cwd mainFirst fs projectName projectPath).2.trace,
      e.isRun = false ∧ e.isWrite = false := by
  rw [create_exists hn hp hex]
  simp [Outcome.exitCode, Event.isRun, Event.isWrite]

/-- Name `demo`, path `/tmp/out`, with `/tmp/out/demo` already present. -/
theorem create_existing_target_declines_witness :
    fsDemo.ents (target [] "demo" "/tmp/out") ≠ none ∧
    (create toolOk [] true fsDemo "demo" "/tmp/out").1 = Outcome.declined ∧
    (create toolOk [] true fsDemo "demo" "/tmp/out").2.fs = fsDemo :=
  ⟨by decide,
   (create_existing_target_declines toolOk [] true fsDemo "demo" "/tmp/out"
      (by decide) (by decide) (by decide)).1,
   (create_existing_target_declines toolOk [] true fsDemo "demo" "/tmp/out"
      (by decide) (by decide) (by decide)).2.2.1⟩

/-- C10: the target is made with the single-level `os.Mkdir`: with a non-empty
name and path, when the parent of `join(path, name)` does not exist, the run
ends in `log.Fatal` right after the `Mkdir` call, the filesystem is unchanged
(no parent directory is created) and no external command is started. -/
theorem missing_parent_is_fatal (tool : Tool) (cwd : Path) (mainFirst : Bool) (fs : FS)
    (projectName projectPath : String) (hn : projectName ≠ "") (hp : projectPath ≠ "")
    (hpar : fs.ents (target cwd projectName projectPath).dropLast = none) :
    (create tool cwd mainFirst fs projectName projectPath).1 = Outcome.fatal ∧
    (create tool cwd mainFirst fs projectName projectPath).2.fs = fs ∧
    (create tool cwd mainFirst fs projectName projectPath).2.trace =
      [Event.println "Creating project...",
       Event.stat (target cwd projectName projectPath),
       Event.mkdir (target cwd projectName projectPath) 0o777] ∧
    ∀ e ∈ (create tool cwd mainFirst fs projectName projectPath).2.trace, e.isRun = false := by
  have hg : fs.ents (target cwd projectName projectPath) = none := by
    by_contra hne
    have := fs.parent_dir _ hne
    rw [hpar] at this
    cases this
  have hmk : fs.mkdir (target cwd projectName projectPath) = none :=
    FS.mkdir_none_of_parent (by rw [hpar]; simp)
  rw [create_mkdir_fail hn hp hg hmk]
  simp [traceToMkdir, Event.isRun]

/-- Name `svc/api`, path `/tmp/out`: the intermediate directory `/tmp/out/svc` is missing. -/
theorem missing_parent_is_fatal_witness :
    fsTmpOut.ents (target [] "svc/api" "/tmp/out").dropLast = none ∧
    (create toolOk [] true fsTmpOut "svc/api" "/tmp/out").1 = Outcome.fatal ∧
    (create toolOk [] true fsTmpOut "svc/api" "/tmp/out").2.fs = fsTmpOut :=
  ⟨by decide,
   (missing_parent_is_fatal toolOk [] true fsTmpOut "svc/api" "/tmp/out"
      (by decide) (by decide) (by decide)).1,
   (missing_parent_is_fatal toolOk [] true fsTmpOut "svc/api" "/tmp/out"
      (by decide) (by decide) (by decide)).2.1⟩

/-- C3 as stated fails: with name `demo`, path `/tmp/out` and a toolchain whose
`go mod init` leaves `go.mod` and whose `go get` leaves `go.sum`, the run
succeeds and the target holds `internal` (made by `MkdirAll` on the way to
`internal/handler`) and `go.sum` (left by `go get`); neither is among the six
listed entries and neither was there after the module-init command. -/
theorem listing_as_stated_fails :
    (create toolOk [] true fsTmpOut "demo" "/tmp/out").1 = Outcome.done ∧
    (create toolOk [] true fsTmpOut "demo" "/tmp/out").2.fs.ents
      (target [] "demo" "/tmp/out" ++ ["internal"]) = some Node.dir ∧
    (create toolOk [] true fsTmpOut "demo" "/tmp/out").2.fs.ents
      (target [] "demo" "/tmp/out" ++ ["go.sum"]) = some (Node.file "sums\n") ∧
    (fsAfterInit toolOk [] fsTmpOut "demo" "/tmp/out").ents
      (target [] "demo" "/tmp/out" ++ ["internal"]) = none ∧
    (fsAfterInit toolOk [] fsTmpOut "demo" "/tmp/out").ents
      (target [] "demo" "/tmp/out" ++ ["go.sum"]) = none ∧
    ¬ (∀ rel : Path, rel ≠ [] →
      ((create toolOk [] true fsTmpOut "demo" "/tmp/out").2.fs.ents
          (target [] "demo" "/tmp/out" ++ rel) ≠ none ↔
        rel ∈ listedEntries ∨
        (fsAfterInit toolOk [] fsTmpOut "demo" "/tmp/out").ents
          (target [] "demo" "/tmp/out" ++ rel) ≠ none)) := by
  refine ⟨by decide, by decide, by decide, by decide, by decide, ?_⟩
  intro hall
  have h1 := (hall ["internal"] (by decide)).mp (by decide)
  revert h1
  decide

/-- C3 (amended): in a run that reached the end of `Run`, the entries under
the target are exactly `docker-compose.yml`, `cmd`, `internal`,
`internal/handler`, `configs`, `cmd/main.go`, `internal/handler/handler.go`
and whatever was under the target once module-init and the four dependency
commands had run; the four directories are directories and the three files
are regular files. -/
theorem done_listing (tool : Tool) (cwd : Path) (mainFirst : Bool) (fs : FS)
    (projectName projectPath : String)
    (h : (create tool cwd mainFirst fs projectName projectPath).1 = Outcome.done) :
    (∀ rel : Path, rel ≠ [] →
      ((create tool cwd mainFirst fs projectName projectPath).2.fs.ents
          (target cwd projectName projectPath ++ rel) ≠ none ↔
        rel ∈ listedEntries ∨ rel = ["internal"] ∨
        (fsAfterDeps tool cwd fs projectName projectPath).ents
          (target cwd projectName projectPath ++ rel) ≠ none)) ∧
    (∀ rel ∈ [["cmd"], ["internal"], ["internal", "handler"], ["configs"]],
      (create tool cwd mainFirst fs projectName projectPath).2.fs.ents
        (target cwd projectName projectPath ++ rel) = some Node.dir) ∧
    (∀ rel ∈ [["docker-compose.yml"], ["cmd", "main.go"], ["internal", "handler", "handler.go"]],
      ∃ c, (create tool cwd mainFirst fs projectName projectPath).2.fs.ents
        (target cwd projectName projectPath ++ rel) = some (Node.file c)) := by
  refine ⟨?_, ?_, ?_⟩
  · intro rel hrel
    rw [create_done_ents h rel]
    by_cases h1 : rel = ["cmd", "main.go"]
    · simp [h1, listedEntries]
    by_cases h2 : rel = ["internal", "handler", "handler.go"]
    · simp [h2, listedEntries]
    by_cases h3 : rel = ["docker-compose.yml"]
    · simp [h3, listedEntries]
    by_cases h5 : rel = ["cmd"]
    · simp [h5, listedEntries]
    by_cases h6 : rel = ["internal"]
    · simp [h6, listedEntries]
    by_cases h7 : rel = ["internal", "handler"]
    · simp [h7, listedEntries]
    by_cases h8 : rel = ["configs"]
    · simp [h8, listedEntries]
    simp [h1, h2, h3, hrel, h5, h6, h7, h8, listedEntries]
  · intro rel hrel
    rw [create_done_ents h rel]
    simp only [List.mem_cons, List.mem_singleton, List.not_mem_nil, or_false] at hrel
    rcases hrel with rfl | rfl | rfl | rfl <;> simp
  · intro rel hrel
    rw [create_done_ents h rel]
    simp only [List.mem_cons, List.mem_singleton, List.not_mem_nil, or_false] at hrel
    rcases hrel with rfl | rfl | rfl <;> simp

/-- Name `demo`, path `/tmp/out`: `go.sum` is under the target because `go get` left it there. -/
theorem done_listing_witness :
    (create toolOk [] true fsTmpOut "demo" "/tmp/out").1 = Outcome.done ∧
    ((create toolOk [] true fsTmpOut "demo" "/tmp/out").2.fs.ents
        (target [] "demo" "/tmp/out" ++ ["go.sum"]) ≠ none ↔
      ["go.sum"] ∈ listedEntries ∨ ["go.sum"] = ["internal"] ∨
      (fsAfterDeps toolOk [] fsTmpOut "demo" "/tmp/out").ents
        (target [] "demo" "/tmp/out" ++ ["go.sum"]) ≠ none) :=
  ⟨by decide,
   (done_listing toolOk [] true fsTmpOut "demo" "/tmp/out" (by decide)).1 ["go.sum"]
     (by decide)⟩

/-- C4: the bytes of the three templates do not depend on the inputs: in any
two runs that reached the end of `Run`, with any names, paths, toolchains and
initial filesystems, `docker-compose.yml`, `cmd/main.go` and
`internal/handler/handler.go` under the respective targets hold the same
content in both, namely the literal of `WriteDockerComposeFile`,
`WriteMainFile` and `WriteHandlerFile`. -/
theorem template_bytes_fixed (toolA toolB : Tool) (cwdA cwdB : Path) (orderA orderB : Bool)
    (fsA fsB : FS) (nameA pathA nameB pathB : String)
    (hA : (create toolA cwdA orderA fsA nameA pathA).1 = Outcome.done)
    (hB : (create toolB cwdB orderB fsB nameB pathB).1 = Outcome.done) :
    ((create toolA cwdA orderA fsA nameA pathA).2.fs.ents
        (filepathJoin (target cwdA nameA pathA) "docker-compose.yml") =
        some (Node.file (unlines composeFileLines)) ∧
      (create toolB cwdB orderB fsB nameB pathB).2.fs.ents
        (filepathJoin (target cwdB nameB pathB) "docker-compose.yml") =
        some (Node.file (unlines composeFileLines))) ∧
    ((create toolA cwdA orderA fsA nameA pathA).2.fs.ents
        (filepathJoin (target cwdA nameA pathA) "cmd/main.go") =
        some (Node.file (unlines mainFileLines)) ∧
      (create toolB cwdB orderB fsB nameB pathB).2.fs.ents
        (filepathJoin (target cwdB nameB pathB) "cmd/main.go") =
        some (Node.file (unlines mainFileLines))) ∧
    ((create toolA cwdA orderA fsA nameA pathA).2.fs.ents
        (filepathJoin (target cwdA nameA pathA) "internal/handler/handler.go") =
        some (Node.file (unlines handlerFileLines)) ∧
      (create toolB cwdB orderB fsB nameB pathB).2.fs.ents
        (filepathJoin (target cwdB nameB pathB) "internal/handler/handler.go") =
        some (Node.file (unlines handlerFileLines))) := by
  simp only [join_compose, join_main, join_handler, create_done_ents hA, create_done_ents hB]
  simp

/-- Two completed runs, `demo` in `/tmp/out` and `api` in `../tmp` from `/home`, hold the same `cmd/main.go`. -/
theorem template_bytes_fixed_witness :
    (create toolOk [] true fsTmpOut "demo" "/tmp/out").1 = Outcome.done ∧
    (create (toolGetFails "") ["home"] false fsTmpOut "api" "../tmp").1 = Outcome.done ∧
    (create toolOk [] true fsTmpOut "demo" "/tmp/out").2.fs.ents ["tmp", "out", "demo", "cmd", "main.go"] =
      some (Node.file (unlines mainFileLines)) ∧
    (create (toolGetFails "") ["home"] false fsTmpOut "api" "../tmp").2.fs.ents
      ["tmp", "api", "cmd", "main.go"] = some (Node.file (unlines mainFileLines)) :=
  ⟨by decide, by decide,
   (template_bytes_fixed toolOk (toolGetFails "") [] ["home"] true false fsTmpOut fsTmpOut
      "demo" "/tmp/out" "api" "../tmp" (by decide) (by decide)).2.1.1,
   (template_bytes_fixed toolOk (toolGetFails "") [] ["home"] true false fsTmpOut fsTmpOut
      "demo" "/tmp/out" "api" "../tmp" (by decide) (by decide)).2.1.2⟩

/-- C7: `create` is not idempotent: after a run that reached the end of `Run`,
a second run with the same name and path (any toolchain, any `files` order)
on the filesystem the first one left prints "Project directory already
exists.", returns normally, issues only the two `Println` and the probe (no
external command, no write) and leaves that filesystem unchanged. -/
theorem second_run_declines (tool tool2 : Tool) (cwd : Path) (mainFirst mainFirst2 : Bool)
    (fs : FS) (projectName projectPath : String)
    (h : (create tool cwd mainFirst fs projectName projectPath).1 = Outcome.done) :
    create tool2 cwd mainFirst2 (create tool cwd mainFirst fs projectName projectPath).2.fs
        projectName projectPath =
      (Outcome.declined, ⟨(create tool cwd mainFirst fs projectName projectPath).2.fs,
        [Event.println "Creating project...",
         Event.stat (target cwd projectName projectPath),
         Event.println "Project directory already exists."]⟩) := by
  obtain ⟨hn, hp, _⟩ := create_inv h
  have hg := create_done_ents h []
  simp only [List.append_nil] at hg
  exact create_exists hn hp (by rw [hg]; simp)

/-- Name `demo`, path `/tmp/out`, run twice in a row. -/
theorem second_run_declines_witness :
    (create toolOk [] true fsTmpOut "demo" "/tmp/out").1 = Outcome.done ∧
    (create toolOk [] false (create toolOk [] true fsTmpOut "demo" "/tmp/out").2.fs
      "demo" "/tmp/out").1 = Outcome.declined :=
  ⟨by decide,
   congrArg Prod.fst
     (second_run_declines toolOk toolOk [] true false fsTmpOut "demo" "/tmp/out" (by decide))⟩

/-- C8: in every run that reached the end of `Run` (so for name `demo`, path
`/tmp/out` with `/tmp/out/demo` absent), `<target>/docker-compose.yml` holds
the literal of `WriteDockerComposeFile`, whose `services` mapping has the one
key `postgres`, with image `postgres:15`, the environment
`POSTGRES_USER: postgres`, `POSTGRES_PASSWORD: secret`, `POSTGRES_DB: mydb`,
the one port mapping "5432:5432" and the one volume
`postgres_data:/var/lib/postgresql/data`, `postgres_data` being the one named
volume declared. -/
theorem compose_file_descriptor (tool : Tool) (cwd : Path) (mainFirst : Bool) (fs : FS)
    (projectName projectPath : String)
    (h : (create tool cwd mainFirst fs projectName projectPath).1 = Outcome.done) :
    (create tool cwd mainFirst fs projectName projectPath).2.fs.ents
      (filepathJoin (target cwd projectName projectPath) "docker-compose.yml") =
      some (Node.file (unlines composeFileLines)) ∧
    childrenOf "services:" (linesOf (unlines composeFileLines)) = ["postgres:"] ∧
    childrenOf "  postgres:" (linesOf (unlines composeFileLines)) =
      ["image: postgres:15", "container_name: postgres_container", "environment:", "ports:",
       "volumes:"] ∧
    childrenOf "    environment:" (linesOf (unlines composeFileLines)) =
      ["POSTGRES_USER: postgres", "POSTGRES_PASSWORD: secret", "POSTGRES_DB: mydb"] ∧
    childrenOf "    ports:" (linesOf (unlines composeFileLines)) = ["- \"5432:5432\""] ∧
    childrenOf "    volumes:" (linesOf (unlines composeFileLines)) =
      ["- postgres_data:/var/lib/postgresql/data"] ∧
    childrenOf "volumes:" (linesOf (unlines composeFileLines)) = ["postgres_data:"] := by
  refine ⟨?_, by decide, by decide, by decide, by decide, by decide, by decide⟩
  rw [join_compose, create_done_ents h]
  simp

/-- Name `demo`, path `/tmp/out`, with `/tmp/out/demo` absent and every step succeeding. -/
theorem compose_file_descriptor_witness :
    (create toolOk [] true fsTmpOut "demo" "/tmp/out").1 = Outcome.done ∧
    (create toolOk [] true fsTmpOut "demo" "/tmp/out").2.fs.ents
      ["tmp", "out", "demo", "docker-compose.yml"] =
      some (Node.file (unlines composeFileLines)) :=
  ⟨by decide, (compose_file_descriptor toolOk [] true fsTmpOut "demo" "/tmp/out" (by decide)).1⟩

/-- C9: in a run that reached the end of `Run`, the write of
`docker-compose.yml` and its confirmation come before the two writes of the
`files` loop, and the iteration order of `files` does not matter: the run with
the other order also reaches the end, with the same final filesystem. -/
theorem files_order_irrelevant (tool : Tool) (cwd : Path) (mainFirst : Bool) (fs : FS)
    (projectName projectPath : String)
    (h : (create tool cwd mainFirst fs projectName projectPath).1 = Outcome.done) :
    (create tool cwd mainFirst fs projectName projectPath).2.trace =
      traceToDeps projectName (target cwd projectName projectPath) ++
        traceSubdirs (target cwd projectName projectPath) ++
        [Event.writeFile (target cwd projectName projectPath ++ ["docker-compose.yml"])
          (unlines composeFileLines) 0o644,
         Event.printlnPath "Docker Compose file created at"
          (target cwd projectName projectPath ++ ["docker-compose.yml"])] ++
        filesTrace (target cwd projectName projectPath) mainFirst ∧
    (∀ e ∈ traceToDeps projectName (target cwd projectName projectPath) ++
        traceSubdirs (target cwd projectName projectPath), ∀ q c m, e ≠ Event.writeFile q c m) ∧
    (create tool cwd (!mainFirst) fs projectName projectPath).1 = Outcome.done ∧
    (create tool cwd (!mainFirst) fs projectName projectPath).2.fs =
      (create tool cwd mainFirst fs projectName projectPath).2.fs := by
  have h2 : (create tool cwd (!mainFirst) fs projectName projectPath).1 = Outcome.done := by
    obtain ⟨hn, hp, hg, fs1, hmk, hini⟩ := create_inv h
    rw [create_eq_tail hn hp hg hmk hini] at h ⊢
    exact createTail_swap _ h
  refine ⟨?_, ?_, h2, ?_⟩
  · obtain ⟨_, _, _, _, _, _, _, _, r⟩ := create_done_spec h
    rw [r]
    rfl
  · intro e he q c m
    simp only [traceToDeps, traceToInit, traceToMkdir, traceSubdirs, dependencies, List.map,
      List.mem_append, List.mem_cons, List.mem_singleton, List.not_mem_nil, or_false] at he
    rcases he with (((rfl | rfl | rfl) | rfl) | rfl | rfl | rfl | rfl) | rfl | rfl | rfl <;>
      simp
  · obtain ⟨_, _, _, a5, a6, ac5, _, ac6, ar⟩ := create_done_spec h
    obtain ⟨_, _, _, b5, b6, bc5, _, bc6, br⟩ := create_done_spec h2
    rw [ar, br]
    apply FS.eq_of_ents
    funext q
    simp only [ac6, bc6, ac5, bc5]

/-- Name `demo`, path `/tmp/out`: both iteration orders give the same filesystem. -/
theorem files_order_irrelevant_witness :
    (create toolOk [] true fsTmpOut "demo" "/tmp/out").1 = Outcome.done ∧
    (create toolOk [] (!true) fsTmpOut "demo" "/tmp/out").2.fs =
      (create toolOk [] true fsTmpOut "demo" "/tmp/out").2.fs :=
  ⟨by decide,
   (files_order_irrelevant toolOk [] true fsTmpOut "demo" "/tmp/out" (by decide)).2.2.2⟩

/-- C6: in a run that reached the dependency phase (`os.Mkdir` created the
target and `go mod init` succeeded), (1) the external commands issued after
module-init are `go get <dep>` in the target for the first `k` entries of the
fixed list, in order, one each, and nothing else is an external command;
(2) when the command for `d` fails after those for the entries before it
succeeded, exactly these and the one for `d` are issued, the run ends in
`log.Fatal` with the filesystem the failed command left, and no subdirectory
or template call follows; (3) when none fails, all four are issued, one each,
before the first subdirectory or template call. -/
theorem dependency_fetch_order (tool : Tool) (cwd : Path) (mainFirst : Bool) (fs fs1 : FS)
    (projectName projectPath : String) (hn : projectName ≠ "") (hp : projectPath ≠ "")
    (hmk : fs.mkdir (target cwd projectName projectPath) = some fs1)
    (hini : (tool (initCmd projectName (target cwd projectName projectPath)) fs1).2 = true) :
    dependencies = ["github.com/gofiber/fiber/v2", "github.com/rs/zerolog",
      "github.com/jmoiron/sqlx", "github.com/lib/pq"] ∧
    (∃ k post, k ≤ 4 ∧
      (create tool cwd mainFirst fs projectName projectPath).2.trace =
        traceToInit projectName (target cwd projectName projectPath) ++
          (dependencies.take k).map
            (fun d => Event.run ⟨"go", ["get", d], target cwd projectName projectPath⟩) ++ post ∧
      ∀ e ∈ post, e.isRun = false) ∧
    (∀ pre d post, dependencies = pre ++ d :: post →
      allSucceed tool (target cwd projectName projectPath) pre
        (tool (initCmd projectName (target cwd projectName projectPath)) fs1).1 = true →
      (tool (getCmd (target cwd projectName projectPath) d)
        (stateAfter tool (target cwd projectName projectPath) pre
          (tool (initCmd projectName (target cwd projectName projectPath)) fs1).1)).2 = false →
      create tool cwd mainFirst fs projectName projectPath =
        (Outcome.fatal,
          ⟨(tool (getCmd (target cwd projectName projectPath) d)
            (stateAfter tool (target cwd projectName projectPath) pre
              (tool (initCmd projectName (target cwd projectName projectPath)) fs1).1)).1,
           traceToInit projectName (target cwd projectName projectPath) ++
            (pre ++ [d]).map
              (fun d => Event.run ⟨"go", ["get", d], target cwd projectName projectPath⟩)⟩)) ∧
    (∀ e ∈ traceToInit projectName (target cwd projectName projectPath),
      e.isScaffold = false) ∧
    (allSucceed tool (target cwd projectName projectPath) dependencies
        (tool (initCmd projectName (target cwd projectName projectPath)) fs1).1 = true →
      ∃ post, (create tool cwd mainFirst fs projectName projectPath).2.trace =
        traceToInit projectName (target cwd projectName projectPath) ++
          dependencies.map
            (fun d => Event.run ⟨"go", ["get", d], target cwd projectName projectPath⟩) ++ post ∧
        ∀ e ∈ post, e.isRun = false) := by
  obtain ⟨hg, _, _⟩ := FS.mkdir_some hmk
  have hc : create tool cwd mainFirst fs projectName projectPath = _ :=
    create_eq_tail hn hp hg hmk hini
  refine ⟨rfl, ?_, ?_, ?_, ?_⟩
  · obtain ⟨post, e, hpost⟩ := createTail_trace (target cwd projectName projectPath) mainFirst
      (installLoop tool (target cwd projectName projectPath) dependencies
        ⟨(tool (initCmd projectName (target cwd projectName projectPath)) fs1).1,
          traceToInit projectName (target cwd projectName projectPath)⟩)
    obtain ⟨k, hk, e2⟩ := installLoop_trace tool (target cwd projectName projectPath) dependencies
      ⟨(tool (initCmd projectName (target cwd projectName projectPath)) fs1).1,
        traceToInit projectName (target cwd projectName projectPath)⟩
    refine ⟨k, post, hk, ?_, hpost⟩
    rw [hc, e, e2]
    rfl
  · intro pre d post hsplit hpre hd
    rw [hc, hsplit, installLoop_fail tool _ d post pre _ hpre hd, createTail_false]
    rfl
  · simp [traceToInit, traceToMkdir, Event.isScaffold]
  · intro hall
    obtain ⟨post, e, hpost⟩ := createTail_trace (target cwd projectName projectPath) mainFirst
      (installLoop tool (target cwd projectName projectPath) dependencies
        ⟨(tool (initCmd projectName (target cwd projectName projectPath)) fs1).1,
          traceToInit projectName (target cwd projectName projectPath)⟩)
    refine ⟨post, ?_, hpost⟩
    rw [hc, e, installLoop_ok tool _ _ _ hall]
    rfl

/-- Name `demo`, path `/tmp/out`, with a toolchain in which the third fetch fails: three fetches are issued and the run is fatal. -/
theorem dependency_fetch_order_witness :
    (toolGetFails "github.com/jmoiron/sqlx" (initCmd "demo" (target [] "demo" "/tmp/out"))
      ((fsTmpOut.mkdir (target [] "demo" "/tmp/out")).getD fsTmpOut)).2 = true ∧
    create (toolGetFails "github.com/jmoiron/sqlx") [] true fsTmpOut "demo" "/tmp/out" =
      (Outcome.fatal, ⟨(fsTmpOut.mkdir (target [] "demo" "/tmp/out")).getD fsTmpOut,
        [Event.println "Creating project...",
         Event.stat ["tmp", "out", "demo"],
         Event.mkdir ["tmp", "out", "demo"] 0o777,
         Event.run ⟨"go", ["mod", "init", "demo"], ["tmp", "out", "demo"]⟩,
         Event.run ⟨"go", ["get", "github.com/gofiber/fiber/v2"], ["tmp", "out", "demo"]⟩,
         Event.run ⟨"go", ["get", "github.com/rs/zerolog"], ["tmp", "out", "demo"]⟩,
         Event.run ⟨"go", ["get", "github.com/jmoiron/sqlx"], ["tmp", "out", "demo"]⟩]⟩) :=
  ⟨rfl,
   (dependency_fetch_order (toolGetFails "github.com/jmoiron/sqlx") [] true fsTmpOut
      ((fsTmpOut.mkdir (target [] "demo" "/tmp/out")).getD fsTmpOut) "demo" "/tmp/out"
      (by decide) (by decide) rfl rfl).2.2.1
      ["github.com/gofiber/fiber/v2", "github.com/rs/zerolog"] "github.com/jmoiron/sqlx"
      ["github.com/lib/pq"] rfl rfl rfl⟩

end Scaffold
